import Mathlib

/-!
Verification of the recipe MCP server (`recipe_server.py`) against its
natural-language specification.

The source is a Python program whose state lives on the filesystem:
a recipes root directory containing one sub-directory per sanitized search
term, each holding a `recipes_info.json` file (a JSON object mapping recipe
id to a recipe record), plus a top-level `recipe_index.json` file mapping
recipe id to the absolute path of its containing collection file.

Shallow embedding conventions:
* Python dicts are modelled as association lists (`List (String × β)`)
  with Python's assignment semantics (`dset`): assigning to an existing
  key overwrites it in place, assigning a fresh key appends.
* A JSON file on disk is `Option (FileData β)`: `none` means the file is
  absent, `some (.good m)` means it exists and parses to the mapping `m`,
  `some .corrupt` means it exists but `json.loads` raises
  `JSONDecodeError` (or the read itself fails).
* The filesystem state relevant to the index is `FsState`: whether the
  recipes root exists, the list of sub-directories *in the order
  `Path.iterdir()` yields them* (this order is filesystem-dependent and is
  the scan order of `_build_recipe_index`), and the state of the index file.
* Exceptions are modelled with `Except PyExc`; a Python
  `try/except Exception` wrapper is `pyCatch` with a total handler.
-/

namespace RecipeMCP

/-- A recipe record as built by `search_recipes` (lines 146-160 of the
source) and stored under its id in a collection's `recipes_info.json`. -/
structure Recipe where
  name : String
  cuisine : String
  category : String
  instructions : String
  image_url : String
  youtube_url : String
  source_url : String
  ingredients : List (String × String)
  tags : List String
deriving DecidableEq, Repr

/-- Parse status of a JSON file that exists on disk: either it parses to a
mapping `m`, or reading/parsing it raises (`FileNotFoundError` races and
`json.JSONDecodeError` in the source). -/
inductive FileData (β : Type) where
  | good (m : List (String × β))
  | corrupt
deriving DecidableEq

/-- One sub-directory of the recipes root, as seen by
`RECIPES_DIR.iterdir()` filtered by `is_dir()`: its name and the state of
its `recipes_info.json` file (`none` when that file does not exist, which
is also how `meal_plans/` and `by_letter/` appear to the index scan). -/
structure CollectionDir where
  name : String
  content : Option (FileData Recipe)
deriving DecidableEq

/-- The filesystem state observed by the index code: existence of the
recipes root, its sub-directories in iteration order, and the index file. -/
structure FsState where
  recipesDirExists : Bool
  dirs : List CollectionDir
  indexFile : Option (FileData String)
deriving DecidableEq

/-- Python dict lookup `d[k]` / membership `k in d` on the association-list
model: the first entry with key `k` (keys are unique in a dict, and `dset`
preserves uniqueness of an initially unique list). -/
def alookup {β : Type} (k : String) : List (String × β) → Option β
  | [] => none
  | p :: t => if p.1 = k then some p.2 else alookup k t

/-- Python dict assignment `d[k] = v`: overwrite in place when the key is
present, append when it is fresh (insertion order is preserved, as in
CPython). -/
def dset {β : Type} (d : List (String × β)) (k : String) (v : β) :
    List (String × β) :=
  match alookup k d with
  | some _ => d.map (fun p => if p.1 = k then (k, v) else p)
  | none => d ++ [(k, v)]

/-- Python `d.update(kvs)` expressed as repeated assignment, and also the
body of the `for meal in meals` loop of `search_recipes`: fold `dset` over
the new entries in order. -/
def updateAll {β : Type} (idx : List (String × β))
    (kvs : List (String × β)) : List (String × β) :=
  kvs.foldl (fun i kv => dset i kv.1 kv.2) idx

/-- The value the *last* entry of `kvs` with key `k` carries, if any:
this is what a dict holds after inserting the entries of `kvs` in order. -/
def lastVal {β : Type} : List (String × β) → String → Option β
  | [], _ => none
  | p :: t, k =>
    match lastVal t k with
    | some v => some v
    | none => if p.1 = k then some p.2 else none

theorem alookup_append {β : Type} (d e : List (String × β)) (k : String) :
    alookup k (d ++ e) =
      match alookup k d with
      | some v => some v
      | none => alookup k e := by
  induction d with
  | nil => simp [alookup]
  | cons p t ih =>
    by_cases hp : p.1 = k
    · simp [alookup, hp]
    · simp [alookup, hp, ih]

theorem alookup_map_overwrite {β : Type} (d : List (String × β))
    (k k' : String) (v : β) (h : k' ≠ k) :
    alookup k' (d.map (fun p => if p.1 = k then (k, v) else p)) =
      alookup k' d := by
  induction d with
  | nil => rfl
  | cons p t ih =>
    by_cases hp : p.1 = k
    · have hne : ¬ (k = k') := fun hk => h hk.symm
      simp [alookup, hp, hne, ih]
    · simp [alookup, hp, ih]

theorem alookup_map_overwrite_self {β : Type} (d : List (String × β))
    (k : String) (v : β) (w : β) (h : alookup k d = some w) :
    alookup k (d.map (fun p => if p.1 = k then (k, v) else p)) = some v := by
  induction d with
  | nil => simp [alookup] at h
  | cons p t ih =>
    by_cases hp : p.1 = k
    · simp [alookup, hp]
    · simp [alookup, hp] at h
      simp [alookup, hp, ih h]

theorem alookup_dset {β : Type} (d : List (String × β)) (k k' : String)
    (v : β) :
    alookup k' (dset d k v) = if k' = k then some v else alookup k' d := by
  unfold dset
  cases h : alookup k d with
  | some w =>
    by_cases hk : k' = k
    · subst hk
      simp [alookup_map_overwrite_self d k' v w h]
    · simp [hk, alookup_map_overwrite d k k' v hk]
  | none =>
    by_cases hk : k' = k
    · subst hk
      simp [alookup_append, h, alookup]
    · have hne : ¬ (k = k') := fun he => hk he.symm
      rw [if_neg hk, alookup_append]
      cases hd : alookup k' d with
      | some w => rfl
      | none => simp [alookup, hne]

/-- First-wins choice between an optional override and a default; used to
state lookup results after a merge without repeating `match` blocks. -/
def orDefault {β : Type} (o : Option β) (x : Option β) : Option β :=
  match o with
  | some v => some v
  | none => x

theorem alookup_updateAll {β : Type} (kvs : List (String × β)) :
    ∀ (acc : List (String × β)) (k : String),
      alookup k (updateAll acc kvs) =
        orDefault (lastVal kvs k) (alookup k acc) := by
  induction kvs with
  | nil => intro acc k; rfl
  | cons p t ih =>
    intro acc k
    have hstep : updateAll acc (p :: t) = updateAll (dset acc p.1 p.2) t := by
      simp [updateAll]
    rw [hstep, ih, alookup_dset]
    cases h : lastVal t k with
    | some v => simp [orDefault, lastVal, h]
    | none =>
      by_cases hk : p.1 = k
      · rw [if_pos hk.symm]
        simp [orDefault, lastVal, h, hk]
      · rw [if_neg (fun he => hk he.symm)]
        simp [orDefault, lastVal, h, hk]

/-- The string `str(file_path)` for the collection file of the directory
named `n` inside the recipes root (`RECIPES_DIR / n / "recipes_info.json"`);
the root is abbreviated to `recipes` since only the shape matters. -/
def pathOf (n : String) : String := "recipes/" ++ n ++ "/recipes_info.json"

/-- What `Path(p).exists()` / opening and parsing the file at path `p`
sees: the content of the directory whose collection file has path `p`, or
`none` when no such file exists (stale index entries may hold arbitrary
strings that match no current file). -/
def fileAt (dirs : List CollectionDir) (p : String) : Option (FileData Recipe) :=
  match dirs.find? (fun d => pathOf d.name == p) with
  | some d => d.content
  | none => none

/-- The dictionary `process_file` returns for one directory (lines 206-213
of the source): `{recipe_id: str(file_path)}` for a parsed file, `{}` when
the file is missing or fails to read/parse (the explicit
`except (FileNotFoundError, json.JSONDecodeError)` plus the
`isinstance(result, dict)` filter after `asyncio.gather`, which drops any
other exception the same way). -/
def fileEntries (d : CollectionDir) : List (String × String) :=
  match d.content with
  | some (.good m) => m.map (fun kv => (kv.1, pathOf d.name))
  | _ => []

/-- `_build_recipe_index` (lines 190-224): scan the sub-directories of the
recipes root in iteration order, collect id-to-path entries from each
readable collection file, and merge them with `index.update(result)` in
that same order (the `asyncio.gather` result list preserves task order). -/
def _build_recipe_index (st : FsState) : List (String × String) :=
  if st.recipesDirExists then
    st.dirs.foldl (fun idx d => updateAll idx (fileEntries d)) []
  else []

/-- Whether the directory `d` has a readable collection file containing
`id`. -/
def ownsId (d : CollectionDir) (id : String) : Bool :=
  match d.content with
  | some (.good m) => (alookup id m).isSome
  | _ => false

/-- The name of the last directory in scan order whose readable collection
file contains `id`, if any: the entry that survives the merge. -/
def lastOwner : List CollectionDir → String → Option String
  | [], _ => none
  | d :: t, id =>
    match lastOwner t id with
    | some n => some n
    | none => if ownsId d id then some d.name else none

theorem lastVal_const_map {β : Type} (m : List (String × β)) (p : String)
    (id : String) :
    lastVal (m.map (fun kv => (kv.1, p))) id =
      if (alookup id m).isSome then some p else none := by
  induction m with
  | nil => simp [lastVal, alookup]
  | cons kv t ih =>
    by_cases hk : kv.1 = id
    · simp [lastVal, alookup, hk, ih]
      cases alookup id t <;> simp
    · simp [lastVal, alookup, hk, ih]
      by_cases hs : (alookup id t).isSome <;> simp [hs]

theorem lastVal_fileEntries (d : CollectionDir) (id : String) :
    lastVal (fileEntries d) id =
      if ownsId d id then some (pathOf d.name) else none := by
  unfold fileEntries ownsId
  cases hc : d.content with
  | none => simp [lastVal]
  | some fd =>
    cases fd with
    | corrupt => simp [lastVal]
    | good m => simp [lastVal_const_map]

theorem alookup_build_fold (dirs : List CollectionDir) :
    ∀ (acc : List (String × String)) (id : String),
      alookup id (dirs.foldl (fun idx d => updateAll idx (fileEntries d)) acc) =
        match lastOwner dirs id with
        | some n => some (pathOf n)
        | none => alookup id acc := by
  induction dirs with
  | nil => intro acc id; rfl
  | cons d t ih =>
    intro acc id
    rw [List.foldl_cons, ih]
    cases h : lastOwner t id with
    | some n => simp [lastOwner, h]
    | none =>
      rw [alookup_updateAll]
      rw [lastVal_fileEntries]
      by_cases ho : ownsId d id
      · simp [orDefault, lastOwner, h, ho]
      · simp [orDefault, lastOwner, h, ho]

/-- Characterization of `_build_recipe_index`: when the recipes root
exists, the rebuilt index maps `id` to the collection file of the *last*
directory in scan order whose readable file contains `id`. -/
theorem alookup_build (st : FsState) (id : String) :
    alookup id (_build_recipe_index st) =
      if st.recipesDirExists then (lastOwner st.dirs id).map pathOf
      else none := by
  unfold _build_recipe_index
  by_cases hd : st.recipesDirExists
  · rw [if_pos hd, if_pos hd, alookup_build_fold]
    cases lastOwner st.dirs id <;> simp [alookup]
  · rw [if_neg hd, if_neg hd]
    rfl

theorem lastOwner_isSome (dirs : List CollectionDir) (id : String)
    (d : CollectionDir) (hd : d ∈ dirs) (ho : ownsId d id = true) :
    (lastOwner dirs id).isSome := by
  induction dirs with
  | nil => cases hd
  | cons e t ih =>
    rcases List.mem_cons.mp hd with he | ht
    · cases h : lastOwner t id with
      | some n => simp [lastOwner, h]
      | none => subst he; simp [lastOwner, h, ho]
    · have := ih ht
      cases h : lastOwner t id with
      | some n => simp [lastOwner, h]
      | none => rw [h] at this; simp at this

theorem lastOwner_owns (dirs : List CollectionDir) (id : String) (n : String)
    (h : lastOwner dirs id = some n) :
    ∃ d ∈ dirs, d.name = n ∧ ownsId d id = true := by
  induction dirs with
  | nil => cases h
  | cons e t ih =>
    cases ht : lastOwner t id with
    | some m =>
      rw [lastOwner, ht] at h
      have hmn : m = n := Option.some.inj h
      rcases ih (hmn ▸ ht) with ⟨d, hd, hn, ho⟩
      exact ⟨d, List.mem_cons_of_mem e hd, hn, ho⟩
    | none =>
      rw [lastOwner, ht] at h
      by_cases ho : ownsId e id
      · rw [if_pos ho] at h
        exact ⟨e, List.mem_cons_self e t, Option.some.inj h, ho⟩
      · rw [if_neg ho] at h
        cases h

/-- `_load_recipe_index` (lines 227-245): return the persisted index when
the index file exists and parses (the `except (FileNotFoundError,
JSONDecodeError)` guard turns absence and parse failure into a fall
through); otherwise rebuild, try to persist the rebuilt index, and return
it.  `saveOk` models whether the write of `RECIPE_INDEX_FILE` succeeds;
its failure is swallowed by `except Exception: pass`.  Returns the index
handed to the caller together with the resulting filesystem state. -/
def _load_recipe_index (st : FsState) (saveOk : Bool) :
    List (String × String) × FsState :=
  match st.indexFile with
  | some (.good idx) => (idx, st)
  | _ =>
    let index := _build_recipe_index st
    (index,
     if saveOk then { st with indexFile := some (.good index) } else st)

/-- Sample recipe record used in concrete states below. -/
def rA : Recipe :=
  ⟨"Arrabiata", "Italian", "Pasta", "Cook it.", "", "", "",
   [("Penne", "1 pound")], ["Pasta"]⟩

/-- Second sample recipe record. -/
def rB : Recipe :=
  ⟨"Bruschetta", "Italian", "Starter", "Toast it.", "", "", "", [], []⟩

/-- Completeness of the rebuilt index: every id of a readable collection
file gets an entry. -/
theorem build_complete (st : FsState) (hdir : st.recipesDirExists = true)
    (d : CollectionDir) (hd : d ∈ st.dirs) (m : List (String × Recipe))
    (hm : d.content = some (.good m)) (id : String)
    (hidm : (alookup id m).isSome = true) :
    (alookup id (_build_recipe_index st)).isSome = true := by
  have ho : ownsId d id = true := by
    unfold ownsId
    rw [hm]
    exact hidm
  have hls := lastOwner_isSome st.dirs id d hd ho
  rw [alookup_build, hdir, if_pos rfl]
  cases h : lastOwner st.dirs id with
  | some n => simp
  | none => rw [h] at hls; simp at hls

/-- Soundness of the rebuilt index: every entry maps an id to the path of
a readable collection file containing that id. -/
theorem build_sound (st : FsState) (hdir : st.recipesDirExists = true)
    (id p : String) (hp : alookup id (_build_recipe_index st) = some p) :
    ∃ d ∈ st.dirs, ∃ m, d.content = some (.good m)
      ∧ p = pathOf d.name ∧ (alookup id m).isSome = true := by
  rw [alookup_build, hdir, if_pos rfl] at hp
  cases h : lastOwner st.dirs id with
  | none => rw [h] at hp; simp at hp
  | some n =>
    rw [h] at hp
    simp at hp
    rcases lastOwner_owns st.dirs id n h with ⟨d, hd, hn, ho⟩
    unfold ownsId at ho
    cases hc : d.content with
    | none => rw [hc] at ho; simp at ho
    | some fd =>
      cases fd with
      | corrupt => rw [hc] at ho; simp at ho
      | good m =>
        refine ⟨d, hd, m, hc, ?_, ?_⟩
        · rw [← hp, hn]
        · rw [hc] at ho; exact ho

/-- C2: for every filesystem state whose recipes root exists, the index
produced by `_build_recipe_index` (i) contains an entry for every recipe
id occurring in any readable collection file, and (ii) contains only
entries that map an id to the path of a readable collection file
containing that id — so unreadable (missing or corrupt) files contribute
no entries.  The rebuild never aborts: it is a total function of the
state. -/
theorem C2_build_index_complete_and_sound (st : FsState)
    (hdir : st.recipesDirExists = true) :
    (∀ d ∈ st.dirs, ∀ m, d.content = some (.good m) →
       ∀ id, (alookup id m).isSome = true →
         (alookup id (_build_recipe_index st)).isSome = true)
    ∧ (∀ id p, alookup id (_build_recipe_index st) = some p →
         ∃ d ∈ st.dirs, ∃ m, d.content = some (.good m)
           ∧ p = pathOf d.name ∧ (alookup id m).isSome = true) :=
  ⟨fun d hd m hm id hidm => build_complete st hdir d hd m hm id hidm,
   fun id p hp => build_sound st hdir id p hp⟩

/-- Concrete state for the C2 witness: one readable collection, one
corrupt collection file, one directory with no collection file. -/
def c2State : FsState :=
  { recipesDirExists := true
  , dirs := [⟨"good_dish", some (.good [("1", rA)])⟩,
             ⟨"bad_dish", some .corrupt⟩,
             ⟨"meal_plans", none⟩]
  , indexFile := none }

theorem C2_build_index_complete_and_sound_witness :
    c2State.recipesDirExists = true
    ∧ (alookup "1" (_build_recipe_index c2State)).isSome = true :=
  ⟨rfl,
   (C2_build_index_complete_and_sound c2State rfl).1
     ⟨"good_dish", some (.good [("1", rA)])⟩ (by decide)
     [("1", rA)] rfl "1" (by decide)⟩

/-- Concrete state for the C3 counterexample: two collections both
containing recipe id `"1"`, scanned in the iteration order
`["b_dish", "a_dish"]`, which is *not* lexicographic. -/
def c3State : FsState :=
  { recipesDirExists := true
  , dirs := [⟨"b_dish", some (.good [("1", rA)])⟩,
             ⟨"a_dish", some (.good [("1", rB)])⟩]
  , indexFile := none }

/-- C3 counterexample: the merge in `_build_recipe_index` follows the
`iterdir()` iteration order, not a lexicographic order of collection
names.  With iteration order `["b_dish", "a_dish"]` the duplicate id
`"1"` is assigned to `a_dish`, although `b_dish` also contains it and
sorts last lexicographically — refuting the claim that the
lexicographically last collection wins. -/
theorem C3_counterexample :
    alookup "1" (_build_recipe_index c3State) = some (pathOf "a_dish")
    ∧ ownsId ⟨"b_dish", some (.good [("1", rA)])⟩ "1" = true
    ∧ ⟨"b_dish", some (.good [("1", rA)])⟩ ∈ c3State.dirs
    ∧ pathOf "a_dish" ≠ pathOf "b_dish"
    ∧ "a_dish" < "b_dish" := by
  refine ⟨by decide, by decide, by decide, by decide, ?_⟩
  rw [String.lt_iff_toList_lt]
  decide

/-- C3 amended: when the same recipe id exists in several collections,
`_build_recipe_index` deterministically assigns it to the collection that
comes *last in the directory iteration order* (last-write-wins over the
scan), and the rebuilt index is a pure function of the state, so repeated
rebuilds over the same state and iteration order produce the same index;
the scan order is the filesystem's `iterdir()` order, not a lexicographic
sort of collection names. -/
theorem C3_last_in_scan_order_wins (st : FsState)
    (hdir : st.recipesDirExists = true) (id : String) :
    alookup id (_build_recipe_index st) = (lastOwner st.dirs id).map pathOf := by
  rw [alookup_build, hdir, if_pos rfl]

theorem C3_last_in_scan_order_wins_witness :
    c3State.recipesDirExists = true
    ∧ alookup "1" (_build_recipe_index c3State) =
        (lastOwner c3State.dirs "1").map pathOf :=
  ⟨rfl, C3_last_in_scan_order_wins c3State rfl "1"⟩

/-- C4: `_load_recipe_index` returns the persisted index untouched when
the index file exists and parses; otherwise it rebuilds, attempts to
persist the rebuilt index, and hands the in-memory rebuilt index to the
caller whether or not the save succeeds (a save failure is swallowed and
leaves the filesystem unchanged). -/
theorem C4_load_returns_index_never_fails (st : FsState) (saveOk : Bool) :
    (∀ idx, st.indexFile = some (.good idx) →
       _load_recipe_index st saveOk = (idx, st))
    ∧ ((st.indexFile = none ∨ st.indexFile = some .corrupt) →
       (_load_recipe_index st saveOk).1 = _build_recipe_index st
       ∧ (saveOk = true →
            (_load_recipe_index st saveOk).2 =
              { st with indexFile := some (.good (_build_recipe_index st)) })
       ∧ (saveOk = false → (_load_recipe_index st saveOk).2 = st)) := by
  constructor
  · intro idx h
    simp [_load_recipe_index, h]
  · intro h
    rcases h with h | h <;>
      refine ⟨by simp [_load_recipe_index, h], fun hs => ?_, fun hs => ?_⟩ <;>
        simp [_load_recipe_index, h, hs]

/-- Concrete state for the C4 witness: a corrupt index file, one readable
collection; the save of the rebuilt index fails (`saveOk = false`) and
the caller still receives the rebuilt mapping. -/
def c4State : FsState :=
  { recipesDirExists := true
  , dirs := [⟨"arrabiata", some (.good [("52771", rA)])⟩]
  , indexFile := some .corrupt }

theorem C4_load_returns_index_never_fails_witness :
    (c4State.indexFile = none ∨ c4State.indexFile = some .corrupt)
    ∧ (_load_recipe_index c4State false).1 = _build_recipe_index c4State
    ∧ (_load_recipe_index c4State false).2 = c4State :=
  ⟨Or.inr rfl,
   ((C4_load_returns_index_never_fails c4State false).2 (Or.inr rfl)).1,
   ((C4_load_returns_index_never_fails c4State false).2 (Or.inr rfl)).2.2 rfl⟩

/-- Concrete state for the C5 counterexample: recipe `"52771"` is present
in exactly one collection (`arrabiata`), but the persisted index file is
stale and still points it at a different path. -/
def c5State : FsState :=
  { recipesDirExists := true
  , dirs := [⟨"arrabiata", some (.good [("52771", rA)])⟩]
  , indexFile := some (.good [("52771", "recipes/old/recipes_info.json")]) }

/-- C5 counterexample: `_load_recipe_index` trusts a parseable persisted
index file even when it is stale.  In `c5State` the id `"52771"` lives in
exactly one collection, yet lookup in the loaded index yields the stale
path while a fresh rebuild yields the collection's actual path — refuting
the claim for arbitrary states. -/
theorem C5_counterexample :
    (c5State.dirs.filter (fun d => ownsId d "52771")).length = 1
    ∧ alookup "52771" (_load_recipe_index c5State true).1 =
        some "recipes/old/recipes_info.json"
    ∧ alookup "52771" (_build_recipe_index c5State) = some (pathOf "arrabiata")
    ∧ ("recipes/old/recipes_info.json" : String) ≠ pathOf "arrabiata" := by
  refine ⟨by decide, by decide, by decide, by decide⟩

/-- C5 amended: lookup after `_load_recipe_index` agrees with a fresh
`_build_recipe_index` provided the index file holds no *stale* parseable
data — i.e. it is absent, unparseable, or exactly the index a fresh
rebuild over the current collections would produce (in particular right
after a rebuild has persisted it). -/
theorem C5_lookup_after_load_matches_rebuild (st : FsState)
    (h : st.indexFile = none ∨ st.indexFile = some .corrupt ∨
         st.indexFile = some (.good (_build_recipe_index st)))
    (saveOk : Bool) (id : String) :
    alookup id (_load_recipe_index st saveOk).1 =
      alookup id (_build_recipe_index st) := by
  rcases h with h | h | h <;> simp [_load_recipe_index, h]

/-- Concrete state for the C5 witness: no index file yet, one collection
holding `"52771"`. -/
def c5wState : FsState :=
  { recipesDirExists := true
  , dirs := [⟨"arrabiata", some (.good [("52771", rA)])⟩]
  , indexFile := none }

theorem C5_lookup_after_load_matches_rebuild_witness :
    (c5wState.indexFile = none ∨ c5wState.indexFile = some .corrupt ∨
     c5wState.indexFile = some (.good (_build_recipe_index c5wState)))
    ∧ alookup "52771" (_load_recipe_index c5wState true).1 =
        alookup "52771" (_build_recipe_index c5wState) :=
  ⟨Or.inl rfl,
   C5_lookup_after_load_matches_rebuild c5wState (Or.inl rfl) true "52771"⟩

/-- String rendering of `RECIPES_DIR`. -/
def recipesDirStr : String := "recipes"

/-- A Python exception reaching a tool's `try` block: either
`httpx.RequestError` (handled by its own `except` clause in some tools)
or any other `Exception` with its `str(e)` message. -/
inductive PyExc where
  | requestError (msg : String)
  | other (msg : String)
deriving DecidableEq

/-- `str(e)` of the exception. -/
def excMessage : PyExc → String
  | .requestError m => m
  | .other m => m

/-- A Python `try`-block wrapper: `except` clauses are a partial handler
turning some exceptions into result values; an unhandled exception
propagates.  `except Exception` corresponds to a handler that is total on
`PyExc`. -/
def pyCatch {α : Type} (x : Except PyExc α) (handlers : PyExc → Option α) :
    Except PyExc α :=
  match x with
  | .ok v => .ok v
  | .error e =>
    match handlers e with
    | some v => .ok v
    | none => .error e

/-- The structured outcome of the body of `get_recipe_details`
(lines 264-292), before string rendering. -/
inductive DetailsOk where
  | dirMissing
  | notFoundIndex
  | notFoundInFile (path : String)
  | found (r : Recipe)
deriving DecidableEq

/-- Body of `get_recipe_details` (lines 264-292): check the recipes root,
load the index, look the id up; when the indexed path no longer exists,
rebuild the index and re-query; then open and parse the final path (a
read or parse failure there raises, to be caught by the tool's
`except Exception`) and extract the record. -/
def get_recipe_details_body (recipe_id : String) (st : FsState)
    (indexSaveOk : Bool) : Except PyExc DetailsOk :=
  if st.recipesDirExists = false then .ok .dirMissing
  else
    let recipe_index := (_load_recipe_index st indexSaveOk).1
    match alookup recipe_id recipe_index with
    | none => .ok .notFoundIndex
    | some p =>
      let pFinal : Option String :=
        if (fileAt st.dirs p).isSome then some p
        else alookup recipe_id (_build_recipe_index st)
      match pFinal with
      | none => .ok .notFoundIndex
      | some q =>
        match fileAt st.dirs q with
        | none => .error (.other ("No such file or directory: " ++ q))
        | some .corrupt =>
          .error (.other "Expecting value: line 1 column 1 (char 0)")
        | some (.good m) =>
          match alookup recipe_id m with
          | some r => .ok (.found r)
          | none => .ok (.notFoundInFile q)

/-- JSON string literal (escaping of exotic characters not modelled). -/
def jsonQuote (s : String) : String := "\"" ++ s ++ "\""

/-- JSON array from already-rendered element strings. -/
def jsonArr (items : List String) : String :=
  "[" ++ String.intercalate ", " items ++ "]"

/-- `json.dumps(recipes_info[recipe_id], indent=2)` for a recipe record;
whitespace/indentation details of the rendering are not modelled, only
that the found case returns the serialized record, which is distinct from
every diagnostic string. -/
def jsonDumpsRecipe (r : Recipe) : String :=
  "\x7b " ++
  jsonQuote "name" ++ ": " ++ jsonQuote r.name ++ ", " ++
  jsonQuote "cuisine" ++ ": " ++ jsonQuote r.cuisine ++ ", " ++
  jsonQuote "category" ++ ": " ++ jsonQuote r.category ++ ", " ++
  jsonQuote "instructions" ++ ": " ++ jsonQuote r.instructions ++ ", " ++
  jsonQuote "image_url" ++ ": " ++ jsonQuote r.image_url ++ ", " ++
  jsonQuote "youtube_url" ++ ": " ++ jsonQuote r.youtube_url ++ ", " ++
  jsonQuote "source_url" ++ ": " ++ jsonQuote r.source_url ++ ", " ++
  jsonQuote "ingredients" ++ ": " ++
    jsonArr (r.ingredients.map (fun ing =>
      "\x7b" ++ jsonQuote "ingredient" ++ ": " ++ jsonQuote ing.1 ++ ", " ++
      jsonQuote "measure" ++ ": " ++ jsonQuote ing.2 ++ "\x7d")) ++ ", " ++
  jsonQuote "tags" ++ ": " ++ jsonArr (r.tags.map jsonQuote) ++
  " \x7d"

/-- The string each structured outcome renders to (the literal return
statements of `get_recipe_details`). -/
def detailsString (recipe_id : String) : DetailsOk → String
  | .dirMissing => "Recipes directory " ++ recipesDirStr ++ " does not exist."
  | .notFoundIndex =>
      "No saved information found for recipe " ++ recipe_id ++ "."
  | .notFoundInFile p =>
      "Recipe " ++ recipe_id ++ " not found in " ++ p ++ "."
  | .found r => jsonDumpsRecipe r

/-- The full `get_recipe_details` tool: body wrapped in
`except Exception as e: return "Error in get_recipe_details: ..."`.
A `.ok` value is the string returned to the caller; `.error` would mean a
propagated exception (provably impossible, see C8). -/
def get_recipe_details_exc (recipe_id : String) (st : FsState)
    (indexSaveOk : Bool) : Except PyExc String :=
  pyCatch ((get_recipe_details_body recipe_id st indexSaveOk).map
             (detailsString recipe_id))
    (fun e => some ("Error in get_recipe_details: " ++ excMessage e))

theorem pathOf_injective (a b : String) (h : pathOf a = pathOf b) : a = b := by
  unfold pathOf at h
  have h2 := congrArg String.data h
  simp only [String.data_append] at h2
  rw [List.append_assoc, List.append_assoc] at h2
  have h3 := List.append_cancel_left h2
  have h4 := List.append_cancel_right h3
  exact String.ext h4

theorem fileAt_of_mem_nodup (dirs : List CollectionDir) (d : CollectionDir)
    (hd : d ∈ dirs) (hnodup : (dirs.map (fun x => x.name)).Nodup) :
    fileAt dirs (pathOf d.name) = d.content := by
  induction dirs with
  | nil => cases hd
  | cons e t ih =>
    rcases List.mem_cons.mp hd with he | ht
    · subst he
      unfold fileAt
      simp [List.find?]
    · rw [List.map_cons] at hnodup
      have hnames := List.nodup_cons.mp hnodup
      have hne : e.name ≠ d.name := by
        intro hcontra
        exact hnames.1 (hcontra ▸ List.mem_map_of_mem (fun x => x.name) ht)
      have hpne : (pathOf e.name == pathOf d.name) = false := by
        rw [beq_eq_false_iff_ne]
        intro hcontra
        exact hne (pathOf_injective _ _ hcontra)
      unfold fileAt
      rw [List.find?]
      rw [hpne]
      have := ih ht hnames.2
      unfold fileAt at this
      exact this

/-- Concrete state for the C1 counterexample: the persisted index maps
recipe `"1"` to `beta`'s collection file, which *exists* but no longer
contains `"1"`; the file of `alpha` does contain `"1"`, so a rebuild
would locate it. -/
def c1State : FsState :=
  { recipesDirExists := true
  , dirs := [⟨"alpha", some (.good [("1", rA)])⟩,
             ⟨"beta", some (.good [("2", rB)])⟩]
  , indexFile := some (.good [("1", pathOf "beta"), ("2", pathOf "beta")]) }

/-- C1 counterexample: when the indexed location still *exists* but no
longer contains the id, `get_recipe_details` does **not** rebuild — it
reads the stale file and returns the `"Recipe … not found in …"`
diagnostic, even though a rebuild would have produced the recipe's JSON
record.  This refutes the half of the claim that says a location that
"no longer contains that id" triggers the rebuild. -/
theorem C1_counterexample :
    alookup "1" (_load_recipe_index c1State true).1 = some (pathOf "beta")
    ∧ fileAt c1State.dirs (pathOf "beta") = some (.good [("2", rB)])
    ∧ alookup "1" [(("2" : String), rB)] = none
    ∧ alookup "1" (_build_recipe_index c1State) = some (pathOf "alpha")
    ∧ get_recipe_details_exc "1" c1State true =
        .ok ("Recipe 1 not found in " ++ pathOf "beta" ++ ".")
    ∧ ("Recipe 1 not found in " ++ pathOf "beta" ++ ".") ≠ jsonDumpsRecipe rA := by
  refine ⟨by decide, by decide, by decide, by decide, by rfl, by decide⟩

/-- C1 amended: the repair path of `get_recipe_details` fires only when
the indexed location *no longer exists on disk*; it then rebuilds the
index and re-queries, returning the recipe's JSON record when the rebuilt
index locates the id and the `"No saved information found"` diagnostic
string when the id is still absent — in both cases returning normally,
never raising.  (When the indexed file exists but no longer contains the
id, no rebuild happens and a `"Recipe … not found in …"` diagnostic is
returned instead; see the counterexample.) -/
theorem C1_repair_on_missing_location (st : FsState) (recipe_id p : String)
    (indexSaveOk : Bool)
    (hdir : st.recipesDirExists = true)
    (hnodup : (st.dirs.map (fun x => x.name)).Nodup)
    (hidx : alookup recipe_id (_load_recipe_index st indexSaveOk).1 = some p)
    (hgone : fileAt st.dirs p = none) :
    (alookup recipe_id (_build_recipe_index st) = none →
       get_recipe_details_exc recipe_id st indexSaveOk =
         .ok ("No saved information found for recipe " ++ recipe_id ++ "."))
    ∧ (∀ q, alookup recipe_id (_build_recipe_index st) = some q →
       ∃ m r, fileAt st.dirs q = some (.good m)
         ∧ alookup recipe_id m = some r
         ∧ get_recipe_details_exc recipe_id st indexSaveOk =
             .ok (jsonDumpsRecipe r)) := by
  constructor
  · intro hnone
    unfold get_recipe_details_exc get_recipe_details_body
    simp [hdir, hidx, hgone, hnone, pyCatch, detailsString, Except.map]
  · intro q hq
    rcases build_sound st hdir recipe_id q hq with ⟨d, hd, m, hc, hpq, hsome⟩
    have hfile : fileAt st.dirs q = some (.good m) := by
      rw [hpq, fileAt_of_mem_nodup st.dirs d hd hnodup, hc]
    rcases Option.isSome_iff_exists.mp hsome with ⟨r, hr⟩
    refine ⟨m, r, hfile, hr, ?_⟩
    unfold get_recipe_details_exc get_recipe_details_body
    simp [hdir, hidx, hgone, hq, hfile, hr, pyCatch, detailsString, Except.map]

/-- Concrete state for the C1 witness: the index points `"1"` at a path
whose file was deleted; `alpha`'s file still holds the recipe, so the
repair path rebuilds and returns the record. -/
def c1wState : FsState :=
  { recipesDirExists := true
  , dirs := [⟨"alpha", some (.good [("1", rA)])⟩]
  , indexFile := some (.good [("1", "recipes/gone/recipes_info.json")]) }

theorem C1_repair_on_missing_location_witness :
    alookup "1" (_load_recipe_index c1wState true).1 =
        some "recipes/gone/recipes_info.json"
    ∧ fileAt c1wState.dirs "recipes/gone/recipes_info.json" = none
    ∧ (∃ m r, fileAt c1wState.dirs (pathOf "alpha") = some (.good m)
        ∧ alookup "1" m = some r
        ∧ get_recipe_details_exc "1" c1wState true = .ok (jsonDumpsRecipe r)) :=
  ⟨by decide, by decide,
   (C1_repair_on_missing_location c1wState "1" "recipes/gone/recipes_info.json"
      true rfl (by decide) (by decide) (by decide)).2
     (pathOf "alpha") (by decide)⟩

/-- The characters the source strips out of user-supplied names
(`invalid_chars = '<>:"/\\|?*'`, lines 90 and 321). -/
def invalidChars : List Char := ['<', '>', ':', '"', '/', '\\', '|', '?', '*']

/-- The per-character effect of the replacement loop
(`for char in invalid_chars: safe = safe.replace(char, "_")`) followed by
`safe.replace(" ", "_")`: each replacement substitutes a single character
by `'_'`, and `'_'` is neither invalid nor a space, so the sequential
whole-string replacements compose to this character-wise map. -/
def replaceInvalid (c : Char) : Char :=
  if c ∈ invalidChars ∨ c = ' ' then '_' else c

/-- Predicate for `safe.strip(". ")`. -/
def isDotOrSpace (c : Char) : Bool := c == '.' || c == ' '

/-- Python `s.strip(". ")`: drop leading and trailing dots and spaces. -/
def pyStripDotSpace (cs : List Char) : List Char :=
  ((cs.dropWhile isDotOrSpace).reverse.dropWhile isDotOrSpace).reverse

/-- The name-sanitization logic shared by `search_recipes` (lines 88-105,
fallback `"unknown_dish"`) and `create_meal_plan` (lines 320-335,
fallback `"meal_plan"`): lowercase (modelled character-wise), replace
invalid filename characters and spaces by `'_'`, strip leading/trailing
dots and spaces, truncate to 200 characters, and fall back to a fixed
name when the result is empty or `safe.replace("_", "").strip() == ""`
(i.e. all remaining non-underscore characters are whitespace). -/
def sanitizeName (fallback : String) (name : String) : String :=
  let safe :=
    (pyStripDotSpace ((name.data.map Char.toLower).map replaceInvalid)).take 200
  if safe.isEmpty || (safe.filter (fun c => c != '_')).all Char.isWhitespace then
    fallback
  else
    String.mk safe

theorem mem_sanitize_core (name : String) (c : Char)
    (hc : c ∈ (pyStripDotSpace
        ((name.data.map Char.toLower).map replaceInvalid)).take 200) :
    ∃ c0, c = replaceInvalid c0 := by
  have h1 : c ∈ pyStripDotSpace ((name.data.map Char.toLower).map replaceInvalid) :=
    List.take_subset _ _ hc
  unfold pyStripDotSpace at h1
  rw [List.mem_reverse] at h1
  have h2 := (List.dropWhile_sublist _).subset h1
  rw [List.mem_reverse] at h2
  have h3 := (List.dropWhile_sublist (l := (name.data.map Char.toLower).map replaceInvalid)
      (p := isDotOrSpace)).subset h2
  rcases List.mem_map.mp h3 with ⟨c0, _, hc0⟩
  exact ⟨c0, hc0.symm⟩

theorem replaceInvalid_safe (c0 : Char) :
    replaceInvalid c0 ∉ invalidChars ∧ replaceInvalid c0 ≠ ' ' := by
  unfold replaceInvalid
  by_cases h : c0 ∈ invalidChars ∨ c0 = ' '
  · rw [if_pos h]
    exact ⟨by decide, by decide⟩
  · rw [if_neg h]
    push_neg at h
    exact h

/-- C9: every sanitized storage name (dish or plan, with their respective
fallbacks `"unknown_dish"` and `"meal_plan"`) contains none of the
characters `<>:"/\|?*`, contains no space, has length at most 200 and is
never empty; and whenever the sanitization pipeline yields an empty or
all-underscore string, the fixed fallback name is used. -/
theorem C9_sanitized_names_safe (name : String) (fb : String)
    (hfb : fb = "unknown_dish" ∨ fb = "meal_plan") :
    (∀ c ∈ (sanitizeName fb name).data, c ∉ invalidChars ∧ c ≠ ' ')
    ∧ (sanitizeName fb name).length ≤ 200
    ∧ sanitizeName fb name ≠ ""
    ∧ (((pyStripDotSpace ((name.data.map Char.toLower).map replaceInvalid)).take
          200).all (fun c => c == '_') = true →
        sanitizeName fb name = fb) := by
  unfold sanitizeName
  by_cases hcond : ((pyStripDotSpace
      ((name.data.map Char.toLower).map replaceInvalid)).take 200).isEmpty
      || (((pyStripDotSpace
        ((name.data.map Char.toLower).map replaceInvalid)).take 200).filter
          (fun c => c != '_')).all Char.isWhitespace
  · rw [if_pos hcond]
    rcases hfb with hfb | hfb <;> subst hfb
    · exact ⟨by decide, by decide, by decide, fun _ => rfl⟩
    · exact ⟨by decide, by decide, by decide, fun _ => rfl⟩
  · rw [if_neg hcond]
    refine ⟨?_, ?_, ?_, ?_⟩
    · intro c hc
      rcases mem_sanitize_core name c hc with ⟨c0, hc0⟩
      rw [hc0]
      exact replaceInvalid_safe c0
    · show (String.mk _).length ≤ 200
      have : (String.mk ((pyStripDotSpace
          ((name.data.map Char.toLower).map replaceInvalid)).take 200)).length =
          ((pyStripDotSpace
            ((name.data.map Char.toLower).map replaceInvalid)).take 200).length := rfl
      rw [this, List.length_take]
      exact min_le_left _ _
    · intro hcontra
      apply hcond
      have hdata := congrArg String.data hcontra
      simp only [String.mk] at hdata
      rw [Bool.or_eq_true]
      left
      rw [List.isEmpty_iff]
      exact hdata
    · intro hall
      exfalso
      apply hcond
      rw [Bool.or_eq_true]
      right
      rw [List.all_eq_true]
      intro c hcmem
      rcases List.mem_filter.mp hcmem with ⟨hcin, hne⟩
      rw [List.all_eq_true] at hall
      have hceq : c = '_' := beq_iff_eq.mp (hall c hcin)
      rw [bne_iff_ne] at hne
      exact absurd hceq hne

theorem C9_sanitized_names_safe_witness :
    (("unknown_dish" : String) = "unknown_dish" ∨
        ("unknown_dish" : String) = "meal_plan")
    ∧ ((∀ c ∈ (sanitizeName "unknown_dish" "My Dish?! On: Rice").data,
          c ∉ invalidChars ∧ c ≠ ' ')
       ∧ (sanitizeName "unknown_dish" "My Dish?! On: Rice").length ≤ 200
       ∧ sanitizeName "unknown_dish" "My Dish?! On: Rice" ≠ ""
       ∧ (((pyStripDotSpace ((("My Dish?! On: Rice" : String).data.map
              Char.toLower).map replaceInvalid)).take 200).all
                (fun c => c == '_') = true →
           sanitizeName "unknown_dish" "My Dish?! On: Rice" = "unknown_dish")) :=
  ⟨Or.inl rfl,
   C9_sanitized_names_safe "My Dish?! On: Rice" "unknown_dish" (Or.inl rfl)⟩

/-- The per-recipe summary `create_meal_plan` stores
(`{"id", "name", "cuisine", "category"}`, lines 345-350). -/
structure PlanSummary where
  id : String
  name : String
  cuisine : String
  category : String
deriving DecidableEq, Repr

/-- The meal-plan record written to `meal_plans/<plan_safe>.json`
(lines 367-372). -/
structure MealPlan where
  plan_name : String
  created_date : String
  total_recipes : Nat
  recipes : List PlanSummary
deriving DecidableEq, Repr

/-- Environment of one `create_meal_plan` call: the filesystem state each
inner `get_recipe_details` call observes, whether the `meal_plans`
directory creation and the plan-file write succeed, and the
`datetime.now().isoformat()` timestamp. -/
structure PlanEnv where
  st : FsState
  indexSaveOk : Bool
  mkdirError : Option String
  saveError : Option String
  timestamp : String

/-- The inner `get_recipe_data` helper (lines 340-353): call
`get_recipe_details` and keep a summary only when the result is a recipe
record.  In the source the discrimination is textual — results starting
with `"No saved information"` or `"Error"` are dropped, and anything else
must parse as JSON; the `.found` case serializes a JSON object and every
other case produces a plain diagnostic sentence that `json.loads`
rejects, so exactly the `.found` case yields a summary. -/
def get_recipe_data (st : FsState) (indexSaveOk : Bool)
    (recipe_id : String) : Option PlanSummary :=
  match get_recipe_details_body recipe_id st indexSaveOk with
  | .ok (.found r) => some ⟨recipe_id, r.name, r.cuisine, r.category⟩
  | _ => none

/-- `str(plan_file)` for a sanitized plan name. -/
def planPath (planSafe : String) : String :=
  "recipes/meal_plans/" ++ planSafe ++ ".json"

/-- Body of `create_meal_plan` (lines 315-378): create the `meal_plans`
directory (a failure there raises into the tool's `except Exception`),
sanitize the plan name, resolve every requested id concurrently (the
`asyncio.gather` result list preserves the order of `recipe_ids`; the
inner calls return `dict` or `None`, never raise), keep the resolved
summaries, and save the plan.  Returns the confirmation string together
with the plan record written to disk. -/
def create_meal_plan_body (recipe_ids : List String) (plan_name : String)
    (env : PlanEnv) : Except PyExc (String × Option MealPlan) :=
  match env.mkdirError with
  | some e => .error (.other e)
  | none =>
    let plan_safe := sanitizeName "meal_plan" plan_name
    let results := recipe_ids.map (get_recipe_data env.st env.indexSaveOk)
    let meal_plan_recipes := results.filterMap (fun x => x)
    let meal_plan : MealPlan :=
      ⟨plan_name, env.timestamp, meal_plan_recipes.length, meal_plan_recipes⟩
    match env.saveError with
    | some e => .error (.other e)
    | none =>
      .ok ("Meal plan '" ++ plan_name ++ "' created successfully with "
             ++ toString meal_plan_recipes.length ++ " recipes. Saved to: "
             ++ planPath plan_safe,
           some meal_plan)

/-- The full `create_meal_plan` tool: body wrapped in
`except Exception as e: return "Error creating meal plan: ..."`; on a
caught exception no plan file is written. -/
def create_meal_plan_exc (recipe_ids : List String) (plan_name : String)
    (env : PlanEnv) : Except PyExc (String × Option MealPlan) :=
  pyCatch (create_meal_plan_body recipe_ids plan_name env)
    (fun e => some ("Error creating meal plan: " ++ excMessage e, none))

theorem get_recipe_data_id (st : FsState) (ok : Bool) (id : String)
    (s : PlanSummary) (h : get_recipe_data st ok id = some s) : s.id = id := by
  unfold get_recipe_data at h
  cases hb : get_recipe_details_body id st ok with
  | error e => rw [hb] at h; cases h
  | ok v =>
    cases v with
    | found r =>
      rw [hb] at h
      cases h
      rfl
    | dirMissing => rw [hb] at h; cases h
    | notFoundIndex => rw [hb] at h; cases h
    | notFoundInFile p => rw [hb] at h; cases h

theorem length_filterMap_eq_count {α β : Type} (f : α → Option β)
    (l : List α) :
    (l.filterMap f).length = (l.filter (fun a => (f a).isSome)).length := by
  induction l with
  | nil => rfl
  | cons a t ih =>
    cases h : f a <;> simp [List.filterMap_cons, h, List.filter_cons, ih]

theorem filter_filterMap_not_mem (st : FsState) (ok : Bool) (id : String)
    (l : List String) (hid : id ∉ l) :
    ((l.filterMap (get_recipe_data st ok)).filter
        (fun s => s.id == id)) = [] := by
  rw [List.filter_eq_nil_iff]
  intro s hs
  rcases List.mem_filterMap.mp hs with ⟨b, hb, hfb⟩
  have hsid := get_recipe_data_id st ok b s hfb
  intro hbeq
  rw [beq_iff_eq] at hbeq
  have hbid : b = id := by rw [← hsid, hbeq]
  exact hid (hbid ▸ hb)

theorem count_filterMap_nodup (st : FsState) (ok : Bool)
    (l : List String) (hnd : l.Nodup) (id : String) (hid : id ∈ l) :
    ((l.filterMap (get_recipe_data st ok)).filter
        (fun s => s.id == id)).length =
      if (get_recipe_data st ok id).isSome then 1 else 0 := by
  induction l with
  | nil => cases hid
  | cons a t ih =>
    rw [List.nodup_cons] at hnd
    rcases List.mem_cons.mp hid with he | ht
    · subst he
      rw [List.filterMap_cons]
      cases h : get_recipe_data st ok id with
      | none =>
        simp only [h, Option.isSome_none]
        rw [filter_filterMap_not_mem st ok id t hnd.1]
        simp
      | some s =>
        have hsid := get_recipe_data_id st ok id s h
        simp only [h]
        rw [List.filter_cons]
        have hp : (s.id == id) = true := by rw [hsid]; exact beq_self_eq_true id
        rw [if_pos hp, filter_filterMap_not_mem st ok id t hnd.1]
        simp
    · have hane : a ≠ id := fun he => hnd.1 (he ▸ ht)
      rw [List.filterMap_cons]
      cases h : get_recipe_data st ok a with
      | none =>
        simp only [h]
        exact ih hnd.2 ht
      | some s =>
        have hsid := get_recipe_data_id st ok a s h
        simp only [h]
        rw [List.filter_cons]
        have hp : (s.id == id) = false := by
          rw [hsid]
          exact beq_eq_false_iff_ne.mpr hane
        rw [hp]
        simp only [Bool.false_eq_true, if_false]
        exact ih hnd.2 ht

theorem filterMap_map_id {α β : Type} (f : α → Option β) (l : List α) :
    (l.map f).filterMap (fun x => x) = l.filterMap f := by
  induction l with
  | nil => rfl
  | cons a t ih => cases h : f a <;> simp [List.filterMap_cons, h, ih]

/-- C7: when the `meal_plans` directory creation and the plan-file write
succeed, `create_meal_plan` saves a plan whose `recipes` list consists of
exactly the summaries of the resolvable ids in request order (for
duplicate-free id lists, exactly one summary per resolvable id and none
for an unresolvable id) and whose `total_recipes` equals the number of
resolvable ids. -/
theorem C7_meal_plan_exactly_resolvable (recipe_ids : List String)
    (plan_name : String) (env : PlanEnv)
    (hmk : env.mkdirError = none) (hsave : env.saveError = none)
    (hnd : recipe_ids.Nodup) :
    ∃ msg plan,
      create_meal_plan_exc recipe_ids plan_name env = .ok (msg, some plan)
      ∧ plan.plan_name = plan_name
      ∧ plan.recipes =
          recipe_ids.filterMap (get_recipe_data env.st env.indexSaveOk)
      ∧ plan.total_recipes =
          (recipe_ids.filter
            (fun id => (get_recipe_data env.st env.indexSaveOk id).isSome)).length
      ∧ (∀ id ∈ recipe_ids,
          (plan.recipes.filter (fun s => s.id == id)).length =
            if (get_recipe_data env.st env.indexSaveOk id).isSome then 1
            else 0) := by
  have hL := filterMap_map_id (get_recipe_data env.st env.indexSaveOk) recipe_ids
  refine ⟨"Meal plan '" ++ plan_name ++ "' created successfully with "
      ++ toString (recipe_ids.filterMap
            (get_recipe_data env.st env.indexSaveOk)).length
      ++ " recipes. Saved to: " ++ planPath (sanitizeName "meal_plan" plan_name),
    ⟨plan_name, env.timestamp,
      (recipe_ids.filterMap (get_recipe_data env.st env.indexSaveOk)).length,
      recipe_ids.filterMap (get_recipe_data env.st env.indexSaveOk)⟩,
    ?_, rfl, rfl, ?_, ?_⟩
  · simp [create_meal_plan_exc, create_meal_plan_body, pyCatch, hmk, hsave, hL]
  · exact length_filterMap_eq_count _ _
  · intro id hid
    exact count_filterMap_nodup env.st env.indexSaveOk recipe_ids hnd id hid

/-- Concrete environment for the C7 witness: one saved recipe
(`"52771"`), the second requested id (`"99999"`) unknown. -/
def c7Env : PlanEnv :=
  { st := { recipesDirExists := true
          , dirs := [⟨"arrabiata", some (.good [("52771", rA)])⟩]
          , indexFile := none }
  , indexSaveOk := true
  , mkdirError := none
  , saveError := none
  , timestamp := "2026-10-12T00:00:00" }

theorem C7_meal_plan_exactly_resolvable_witness :
    c7Env.mkdirError = none ∧ c7Env.saveError = none
    ∧ (["52771", "99999"] : List String).Nodup
    ∧ ∃ msg plan,
        create_meal_plan_exc ["52771", "99999"] "Test Plan" c7Env =
          .ok (msg, some plan)
        ∧ plan.plan_name = "Test Plan"
        ∧ plan.recipes =
            (["52771", "99999"] : List String).filterMap
              (get_recipe_data c7Env.st c7Env.indexSaveOk)
        ∧ plan.total_recipes =
            ((["52771", "99999"] : List String).filter
              (fun id => (get_recipe_data c7Env.st c7Env.indexSaveOk id).isSome)).length
        ∧ (∀ id ∈ (["52771", "99999"] : List String),
            (plan.recipes.filter (fun s => s.id == id)).length =
              if (get_recipe_data c7Env.st c7Env.indexSaveOk id).isSome then 1
              else 0) :=
  ⟨rfl, rfl, by decide,
   C7_meal_plan_exactly_resolvable ["52771", "99999"] "Test Plan" c7Env
     rfl rfl (by decide)⟩

/-- A raw meal object from the remote API's `meals` array.  `idMeal` is
accessed by subscript in the source (assumed present in every remote
record); the other fields are read with `.get(...)` and so may be absent
(`none`).  `ingredientSlots` holds the values of
`strIngredient1/strMeasure1` … `strIngredient20/strMeasure20`. -/
structure Meal where
  idMeal : String
  strMeal : Option String
  strArea : Option String
  strCategory : Option String
  strInstructions : Option String
  strMealThumb : Option String
  strYoutube : Option String
  strSource : Option String
  strTags : Option String
  ingredientSlots : List (Option String × Option String)
deriving DecidableEq, Repr

/-- One ingredient slot of the extraction loop (lines 134-144): keep the
pair when the ingredient is truthy and strips to a nonempty string; the
measure falls back to `""` when falsy. -/
def slotEntry : Option String × Option String → Option (String × String)
  | (some ing, meas) =>
    if ing ≠ "" ∧ ing.trim ≠ "" then
      some (ing.trim,
        match meas with
        | some m => if m ≠ "" then m.trim else ""
        | none => "")
    else none
  | (none, _) => none

/-- The `recipe_info` dictionary built from a meal (lines 146-160):
defensive `.get` defaults and the tag split (`strTags.split(",")` when
truthy, else `[]`). -/
def mealToRecipeInfo (m : Meal) : Recipe :=
  { name := m.strMeal.getD "Unknown"
  , cuisine := m.strArea.getD "Unknown"
  , category := m.strCategory.getD "Unknown"
  , instructions := m.strInstructions.getD "No instructions available"
  , image_url := m.strMealThumb.getD ""
  , youtube_url := m.strYoutube.getD ""
  , source_url := m.strSource.getD ""
  , ingredients := m.ingredientSlots.filterMap slotEntry
  , tags := match m.strTags with
    | some t => if t ≠ "" then t.splitOn "," else []
    | none => [] }

/-- Outcome of one remote HTTP exchange: `httpx.RequestError` from the
`get`, `HTTPStatusError` from `raise_for_status()` (caught only by the
generic handler), a JSON decode failure of the response body, or a parsed
body whose `meals` entry is missing/null (`none`) or a list. -/
inductive HttpOutcome where
  | reqError (msg : String)
  | statusError (msg : String)
  | badJson (msg : String)
  | ok (meals : Option (List Meal))
deriving DecidableEq

/-- Environment of one `search_recipes` call: the HTTP outcome, whether
`dish_path.mkdir` raises, the state of the existing collection file at
the dish path, and whether writing the updated collection raises.  The
nested index-update block (lines 169-178) is wrapped in
`except Exception: pass` and affects neither the returned value nor the
collection file, so it is not modelled. -/
structure SearchEnv where
  http : HttpOutcome
  mkdirError : Option String
  existing : Option (FileData Recipe)
  saveError : Option String
deriving DecidableEq

/-- Body of `search_recipes` (lines 72-183).  Returns the value handed to
the caller paired with the content written to the dish's
`recipes_info.json` (`none` when no write happened or the write failed).
A corrupt existing file is treated as empty by the inner
`except (FileNotFoundError, json.JSONDecodeError): pass`; a failed save
still returns the recipe ids (lines 181-183). -/
def search_recipes_body (dish_name : String) (max_results : Nat)
    (env : SearchEnv) :
    Except PyExc (List String × Option (List (String × Recipe))) :=
  match env.http with
  | .reqError m => .error (.requestError m)
  | .statusError m => .error (.other m)
  | .badJson m => .error (.other m)
  | .ok none => .ok (["No recipes found for dish: " ++ dish_name], none)
  | .ok (some []) => .ok (["No recipes found for dish: " ++ dish_name], none)
  | .ok (some (m0 :: rest)) =>
    let meals := (m0 :: rest).take max_results
    let dish_safe := sanitizeName "unknown_dish" dish_name
    match env.mkdirError with
    | some e =>
      .ok (["Cannot create dish directory recipes/" ++ dish_safe ++ ": " ++ e],
           none)
    | none =>
      let recipes_info : List (String × Recipe) :=
        match env.existing with
        | some (.good m) => m
        | _ => []
      let recipe_ids := meals.map (fun m => m.idMeal)
      let recipes_info2 :=
        meals.foldl (fun d m => dset d m.idMeal (mealToRecipeInfo m))
          recipes_info
      match env.saveError with
      | some _ => .ok (recipe_ids, none)
      | none => .ok (recipe_ids, some recipes_info2)

/-- The full `search_recipes` tool: `except httpx.RequestError` first,
then `except Exception` (lines 185-188). -/
def search_recipes_exc (dish_name : String) (max_results : Nat)
    (env : SearchEnv) :
    Except PyExc (List String × Option (List (String × Recipe))) :=
  pyCatch (search_recipes_body dish_name max_results env)
    (fun e => match e with
      | .requestError m => some (["Error fetching recipes: " ++ m], none)
      | .other m => some (["Error in search_recipes: " ++ m], none))

/-- C6: a successful `search_recipes` call over a readable existing
collection file writes back exactly the union of the old mapping and the
freshly fetched entries, with fetched entries winning on equal ids; in
particular every previously stored recipe id is still present, so the
collection never shrinks. -/
theorem C6_collection_grows_by_union (dish_name : String)
    (max_results : Nat) (env : SearchEnv) (ms : List Meal)
    (old : List (String × Recipe))
    (hhttp : env.http = .ok (some ms)) (hne : ms ≠ [])
    (hmk : env.mkdirError = none)
    (hex : env.existing = some (.good old))
    (hsv : env.saveError = none) :
    ∃ ids w,
      search_recipes_exc dish_name max_results env = .ok (ids, some w)
      ∧ (∀ id, alookup id w =
          orDefault (lastVal ((ms.take max_results).map
              (fun m => (m.idMeal, mealToRecipeInfo m))) id)
            (alookup id old))
      ∧ (∀ id, (alookup id old).isSome = true →
          (alookup id w).isSome = true) := by
  cases ms with
  | nil => exact absurd rfl hne
  | cons m0 rest =>
    have hfold : updateAll old (((m0 :: rest).take max_results).map
        (fun m => (m.idMeal, mealToRecipeInfo m))) =
        ((m0 :: rest).take max_results).foldl
          (fun d m => dset d m.idMeal (mealToRecipeInfo m)) old := by
      unfold updateAll
      rw [List.foldl_map]
    have hchar : ∀ id,
        alookup id (((m0 :: rest).take max_results).foldl
          (fun d m => dset d m.idMeal (mealToRecipeInfo m)) old) =
        orDefault (lastVal (((m0 :: rest).take max_results).map
            (fun m => (m.idMeal, mealToRecipeInfo m))) id)
          (alookup id old) := by
      intro id
      rw [← hfold]
      exact alookup_updateAll (((m0 :: rest).take max_results).map
        (fun m => (m.idMeal, mealToRecipeInfo m))) old id
    refine ⟨((m0 :: rest).take max_results).map (fun m => m.idMeal),
      ((m0 :: rest).take max_results).foldl
        (fun d m => dset d m.idMeal (mealToRecipeInfo m)) old,
      ?_, hchar, ?_⟩
    · simp [search_recipes_exc, search_recipes_body, pyCatch, hhttp, hmk,
        hex, hsv]
    · intro id hsome
      rw [hchar id]
      cases lastVal (((m0 :: rest).take max_results).map
          (fun m => (m.idMeal, mealToRecipeInfo m))) id with
      | some r => simp [orDefault]
      | none => exact hsome

/-- Concrete meal for witnesses: the remote record of recipe `52771`. -/
def mealA : Meal :=
  ⟨"52771", some "Arrabiata", some "Italian", some "Pasta", some "Cook it.",
   none, none, none, some "Pasta,Spicy", [(some "Penne", some "1 pound")]⟩

/-- Concrete environment for the C6 witness: the existing collection
already holds a different recipe (`"1"`). -/
def c6Env : SearchEnv :=
  { http := .ok (some [mealA])
  , mkdirError := none
  , existing := some (.good [("1", rB)])
  , saveError := none }

theorem C6_collection_grows_by_union_witness :
    c6Env.http = .ok (some [mealA]) ∧ ([mealA] : List Meal) ≠ []
    ∧ c6Env.mkdirError = none
    ∧ c6Env.existing = some (.good [(("1" : String), rB)])
    ∧ c6Env.saveError = none
    ∧ ∃ ids w,
        search_recipes_exc "arrabiata" 5 c6Env = .ok (ids, some w)
        ∧ (∀ id, alookup id w =
            orDefault (lastVal ((([mealA] : List Meal).take 5).map
                (fun m => (m.idMeal, mealToRecipeInfo m))) id)
              (alookup id [(("1" : String), rB)]))
        ∧ (∀ id, (alookup id [(("1" : String), rB)]).isSome = true →
            (alookup id w).isSome = true) :=
  ⟨rfl, by decide, rfl, rfl, rfl,
   C6_collection_grows_by_union "arrabiata" 5 c6Env [mealA]
     [("1", rB)] rfl (by decide) rfl rfl rfl⟩

/-- Model of Python `str.isalpha()`: nonempty and every character
alphabetic (restricted to the ASCII letters Lean's `Char.isAlpha`
recognises; the claims only concern empty, multi-character, digit and
symbol inputs, on which the two notions agree). -/
def pyIsAlpha (s : String) : Bool := s.length > 0 && s.data.all Char.isAlpha

/-- Environment of one `search_by_first_letter` call. -/
structure LetterEnv where
  http : HttpOutcome
  mkdirError : Option String
  saveError : Option String
deriving DecidableEq

/-- The summary record written to
`by_letter/letter_<x>_search.json` (lines 425-430). -/
structure LetterSummary where
  letter : String
  found_recipes : Nat
  recipe_ids : List String
  recipe_names : List String
deriving DecidableEq, Repr

/-- Body of `search_by_first_letter` (lines 401-437): validate the input
*before* any network or filesystem access, fetch, truncate, create the
`by_letter` directory (uncaught failure raises into `except Exception`),
build the summary (`meal["strMeal"]` by subscript — a missing key raises
`KeyError`) and write it.  Returns the value handed to the caller paired
with the summary written (`none` when nothing was written). -/
def search_by_first_letter_body (letter : String) (max_results : Nat)
    (env : LetterEnv) : Except PyExc (List String × Option LetterSummary) :=
  if letter.length ≠ 1 ∨ pyIsAlpha letter = false then
    .ok (["Please provide a single letter (a-z)"], none)
  else
    match env.http with
    | .reqError m => .error (.requestError m)
    | .statusError m => .error (.other m)
    | .badJson m => .error (.other m)
    | .ok none =>
      .ok (["No recipes found starting with letter: " ++ letter], none)
    | .ok (some []) =>
      .ok (["No recipes found starting with letter: " ++ letter], none)
    | .ok (some (m0 :: rest)) =>
      let meals := (m0 :: rest).take max_results
      let recipe_ids := meals.map (fun m => m.idMeal)
      match env.mkdirError with
      | some e => .error (.other e)
      | none =>
        match meals.mapM (fun m => m.strMeal) with
        | none => .error (.other "strMeal")
        | some names =>
          let summary : LetterSummary :=
            ⟨letter.toUpper, recipe_ids.length, recipe_ids, names⟩
          match env.saveError with
          | some e => .error (.other e)
          | none => .ok (recipe_ids, some summary)

/-- The full `search_by_first_letter` tool: `except httpx.RequestError`
then `except Exception` (lines 439-442). -/
def search_by_first_letter_exc (letter : String) (max_results : Nat)
    (env : LetterEnv) : Except PyExc (List String × Option LetterSummary) :=
  pyCatch (search_by_first_letter_body letter max_results env)
    (fun e => match e with
      | .requestError m => some (["Error searching by letter: " ++ m], none)
      | .other m => some (["Error in search_by_first_letter: " ++ m], none))

/-- C10: whenever `letter` is not exactly one alphabetic character, the
tool returns the single-element diagnostic list and writes nothing — and
since the equation holds for *every* environment, the result is
independent of the HTTP outcome and of the filesystem, i.e. the remote
source is never contacted and no file is created. -/
theorem C10_invalid_letter_rejected (letter : String) (max_results : Nat)
    (env : LetterEnv)
    (h : letter.length ≠ 1 ∨ pyIsAlpha letter = false) :
    search_by_first_letter_exc letter max_results env =
      .ok (["Please provide a single letter (a-z)"], none) := by
  unfold search_by_first_letter_exc search_by_first_letter_body
  rw [if_pos h]
  rfl

theorem C10_invalid_letter_rejected_witness :
    (("ab" : String).length ≠ 1 ∨ pyIsAlpha "ab" = false)
    ∧ (("5" : String).length ≠ 1 ∨ pyIsAlpha "5" = false)
    ∧ (("" : String).length ≠ 1 ∨ pyIsAlpha "" = false)
    ∧ search_by_first_letter_exc "ab" 5
        ⟨.ok (some [mealA]), none, none⟩ =
        .ok (["Please provide a single letter (a-z)"], none)
    ∧ search_by_first_letter_exc "5" 5 ⟨.reqError "boom", none, none⟩ =
        .ok (["Please provide a single letter (a-z)"], none) :=
  ⟨by decide, by decide, by decide,
   C10_invalid_letter_rejected "ab" 5 ⟨.ok (some [mealA]), none, none⟩
     (by decide),
   C10_invalid_letter_rejected "5" 5 ⟨.reqError "boom", none, none⟩
     (by decide)⟩

/-- `json.dumps` of the random-recipe record (lines 481-494): the same
fields as a stored recipe, preceded by an `id` field; rendered by
reusing `jsonDumpsRecipe` with the `id` member spliced in front (the
leading brace-space of the reused rendering is dropped). -/
def jsonDumpsRandom (m : Meal) : String :=
  "\x7b " ++ jsonQuote "id" ++ ": " ++ jsonQuote m.idMeal ++ ", " ++
    (jsonDumpsRecipe (mealToRecipeInfo m)).drop 2

/-- Body of `get_random_recipe` (lines 453-494): fetch `random.php`,
report the empty case, otherwise serialize the first meal.  No file is
written by this tool. -/
def get_random_recipe_body (env : HttpOutcome) : Except PyExc String :=
  match env with
  | .reqError m => .error (.requestError m)
  | .statusError m => .error (.other m)
  | .badJson m => .error (.other m)
  | .ok none => .ok "No random recipe found"
  | .ok (some []) => .ok "No random recipe found"
  | .ok (some (m0 :: _)) => .ok (jsonDumpsRandom m0)

/-- The full `get_random_recipe` tool: `except httpx.RequestError` then
`except Exception` (lines 496-499). -/
def get_random_recipe_exc (env : HttpOutcome) : Except PyExc String :=
  pyCatch (get_random_recipe_body env)
    (fun e => match e with
      | .requestError m => some ("Error getting random recipe: " ++ m)
      | .other m => some ("Error in get_random_recipe: " ++ m))

/-- Whether an `Except`-modelled tool call completed without propagating
an exception. -/
def neverRaised {α : Type} : Except PyExc α → Bool
  | .ok _ => true
  | .error _ => false

theorem pyCatch_total {α : Type} (x : Except PyExc α)
    (handlers : PyExc → Option α) (h : ∀ e, (handlers e).isSome = true) :
    neverRaised (pyCatch x handlers) = true := by
  cases x with
  | ok v => rfl
  | error e =>
    unfold pyCatch
    cases hh : handlers e with
    | some v => simp [hh, neverRaised]
    | none =>
      have := h e
      rw [hh] at this
      simp at this

/-- C8: every tool wraps its body in exception handlers that cover every
modelled exception (remote-source request errors, HTTP status errors,
JSON decode failures, filesystem errors), so each tool call completes
with a returned value — a descriptive string or list of strings — and
never propagates an exception to the caller, for every input and every
environment. -/
theorem C8_tools_never_raise :
    (∀ dish_name max_results env,
       neverRaised (search_recipes_exc dish_name max_results env) = true)
    ∧ (∀ recipe_id st indexSaveOk,
       neverRaised (get_recipe_details_exc recipe_id st indexSaveOk) = true)
    ∧ (∀ recipe_ids plan_name env,
       neverRaised (create_meal_plan_exc recipe_ids plan_name env) = true)
    ∧ (∀ letter max_results env,
       neverRaised (search_by_first_letter_exc letter max_results env) = true)
    ∧ (∀ env, neverRaised (get_random_recipe_exc env) = true) := by
  refine ⟨?_, ?_, ?_, ?_, ?_⟩
  · intro dish_name max_results env
    apply pyCatch_total
    intro e
    cases e <;> rfl
  · intro recipe_id st indexSaveOk
    apply pyCatch_total
    intro e
    cases e <;> rfl
  · intro recipe_ids plan_name env
    apply pyCatch_total
    intro e
    cases e <;> rfl
  · intro letter max_results env
    apply pyCatch_total
    intro e
    cases e <;> rfl
  · intro env
    apply pyCatch_total
    intro e
    cases e <;> rfl

end RecipeMCP
